import Mathlib

/-!
Shallow embedding of the purge orchestrator of the acr-cli repository.

The repository contains two versions of the `worker` package purger:
 - one logging through `fmt.Printf` (file `src/unnamed/part_001`), holding
   `PurgeTags`, `deleteManifest`, `PurgeManifests` and
   `PurgeUntaggedManifests`; it is embedded in namespace `PurgerFmt`;
 - one logging through the structured logger (file
   `src/internal/worker/purger.go`), holding `PurgeTags` and
   `PurgeManifests`; it is embedded in namespace `PurgerLog`.

Collaborators (the registry client behind `api.AcrCLIClientInterface` and
the `common.IsManifestDeletable` predicate) are modelled as function
parameters.  Go pointers that may be nil become `Option`; a nil-pointer
dereference is modelled as a distinguished "panic" outcome.  The pond task
group is modelled by running the submitted tasks in submission order: the
atomically incremented counter is order independent, and `group.Wait()`
returning the first error among the tasks is linearized to the first error
in submission order.  The pagination loop of `PurgeUntaggedManifests` is
given explicit fuel, and records the cursor of every list call and every
digest submitted for deletion, so that the traces the code produces can be
stated and proved.
-/

/-- Go `error` values, identified by their message. -/
abbrev GoError := String

/-- The part of an autorest response object the purge code inspects:
whether the embedded `resp.Response` (the raw `*http.Response`) is non-nil,
and the HTTP status code. -/
structure HttpResponse where
  hasInner : Bool
  statusCode : Nat
deriving DecidableEq

/-- `acr.TagAttributesBase` as used by `PurgeTags`: the `Name` field is a
Go `*string`, hence an `Option`. -/
structure TagAttributesBase where
  Name : Option String
deriving DecidableEq

/-- `acr.ManifestAttributesBase` as used by the untagged sweep: `Digest` is
a Go `*string`; `meta` abstracts the remaining attributes that the external
`common.IsManifestDeletable` predicate inspects. -/
structure ManifestAttributesBase where
  Digest : Option String
  meta : String := ""
deriving DecidableEq

/-- Reply of a registry delete call: the `(resp, err)` pair returned by
`DeleteAcrTag` / `DeleteManifest`. -/
abbrev DeleteReply := Option HttpResponse × Option GoError

/-- Go condition `resp != nil && resp.Response != nil && resp.StatusCode ==
http.StatusNotFound` used on delete replies. -/
def isNotFound (resp : Option HttpResponse) : Bool :=
  match resp with
  | some r => r.hasInner && r.statusCode == 404
  | none => false

/-- `acr.ManifestAttributesResponse` as inspected by the sweep: whether
`resultManifests.Response.Response` is non-nil, the status code, and the
`ManifestsAttributes` slice (a Go `*[]ManifestAttributesBase`). -/
structure ManifestsResult where
  hasInner : Bool
  statusCode : Nat
  ManifestsAttributes : Option (List ManifestAttributesBase)
deriving DecidableEq

/-- Reply of `GetAcrManifests`: the `(resultManifests, err)` pair. -/
abbrev ListReply := Option ManifestsResult × Option GoError

/-- Go condition `resultManifests != nil && resultManifests.Response.Response
!= nil && resultManifests.StatusCode == http.StatusNotFound` used when a
list call returns an error. -/
def listNotFound (resOpt : Option ManifestsResult) : Bool :=
  match resOpt with
  | some res => res.hasInner && res.statusCode == 404
  | none => false

/-- The page of a successful list reply: the slice behind
`resultManifests.ManifestsAttributes` when `err == nil` and
`resultManifests != nil`, and `none` otherwise. -/
def listedPage (r : ListReply) : Option (List ManifestAttributesBase) :=
  match r with
  | (some res, none) => res.ManifestsAttributes
  | _ => none

namespace PurgerFmt

/-- Body of one tag-deletion task submitted by `PurgeTags` (part_001 lines
42-60).  `none` models the nil-pointer panic of `*tag.Name`; otherwise the
pair gives whether `deletedTags` is incremented and the error the task
returns: success and HTTP 404 count and return nil, anything else returns
the error without counting. -/
def runTagTask (delTag : String → DeleteReply) (tag : TagAttributesBase) :
    Option (Bool × Option GoError) :=
  match tag.Name with
  | none => none
  | some name =>
    let (resp, err) := delTag name
    match err with
    | none => some (true, none)
    | some e => if isNotFound resp then some (true, none) else some (false, some e)

/-- The task group of `PurgeTags`, linearized in submission order: final
counter value and first task error, or `none` if some task panics. -/
def purgeTagsRun (delTag : String → DeleteReply) :
    List TagAttributesBase → Option (Nat × Option GoError)
  | [] => some (0, none)
  | t :: ts =>
    match runTagTask delTag t with
    | none => none
    | some (counted, te) =>
      match purgeTagsRun delTag ts with
      | none => none
      | some (c, e) =>
        some ((if counted then 1 else 0) + c, if te.isSome then te else e)

/-- `PurgeTags` (part_001 lines 38-64): submit one task per tag, wait, and
return the counter and the first error. -/
def PurgeTags (delTag : String → DeleteReply) (tags : List TagAttributesBase) :
    Option (Nat × Option GoError) :=
  purgeTagsRun delTag tags

/-- `deleteManifest` (part_001 lines 67-84): classification of one manifest
deletion.  First component: whether `deletedCount` is incremented; second:
the error the task returns. -/
def deleteManifest (delM : String → DeleteReply) (manifestDigest : String) :
    Bool × Option GoError :=
  let (resp, err) := delM manifestDigest
  match err with
  | none => (true, none)
  | some e => if isNotFound resp then (true, none) else (false, some e)

/-- The manifest-deletion task group, linearized in submission order: final
counter value and first task error. -/
def runTasks (delM : String → DeleteReply) : List String → Nat × Option GoError
  | [] => (0, none)
  | d :: ds =>
    let (counted, te) := deleteManifest delM d
    let (c, e) := runTasks delM ds
    ((if counted then 1 else 0) + c, if te.isSome then te else e)

/-- `PurgeManifests` (part_001 lines 87-97): one `deleteManifest` task per
digest, then wait, returning the counter and first error. -/
def PurgeManifests (delM : String → DeleteReply) (manifests : List String) :
    Nat × Option GoError :=
  runTasks delM manifests

/-- Digests submitted for deletion from one listed page (part_001 lines
122-137): a record is skipped when its `Digest` is nil, when
`IsManifestDeletable` rejects it, or when its digest is in the skip set;
the remaining digests are submitted in slice order. -/
def pageSubmissions (isDel : ManifestAttributesBase → Bool) (toSkip : List String)
    (ms : List ManifestAttributesBase) : List String :=
  ms.filterMap fun m =>
    match m.Digest with
    | none => none
    | some d => if !(isDel m) then none else if toSkip.contains d then none else some d

/-- Exit status of the pagination loop of `PurgeUntaggedManifests`. -/
inductive LoopExit where
  | broke
  | repoGone
  | failed (e : GoError)
  | panicked
  | outOfFuel
deriving DecidableEq

/-- Trace of the pagination loop: the cursor of every `GetAcrManifests`
call in order, every digest submitted to the group in order, and how the
loop ended. -/
structure LoopTrace where
  listCalls : List String
  submitted : List String
  exit : LoopExit
deriving DecidableEq

/-- The pagination loop of `PurgeUntaggedManifests` (part_001 lines
107-144), with explicit fuel.  On a list error it returns early, as
`repoGone` (HTTP 404 shaped result) or `failed`; a nil or empty page breaks
out of the loop (`broke`); otherwise the page records are filtered and
submitted and the cursor becomes the last record's digest — dereferenced
without a nil check, so a nonempty page whose last record lacks a digest
ends in `panicked`. -/
def purgeUntaggedLoop (listM : String → ListReply)
    (isDel : ManifestAttributesBase → Bool) (toSkip : List String) :
    Nat → String → LoopTrace
  | 0, _ => ⟨[], [], .outOfFuel⟩
  | fuel + 1, cursor =>
    match listM cursor with
    | (resOpt, some e) =>
      if listNotFound resOpt then ⟨[cursor], [], .repoGone⟩
      else ⟨[cursor], [], .failed e⟩
    | (none, none) => ⟨[cursor], [], .broke⟩
    | (some res, none) =>
      match res.ManifestsAttributes with
      | none => ⟨[cursor], [], .broke⟩
      | some ms =>
        match ms.getLast? with
        | none => ⟨[cursor], [], .broke⟩
        | some lastM =>
          match lastM.Digest with
          | none => ⟨[cursor], pageSubmissions isDel toSkip ms, .panicked⟩
          | some d =>
            let rest := purgeUntaggedLoop listM isDel toSkip fuel d
            ⟨cursor :: rest.listCalls, pageSubmissions isDel toSkip ms ++ rest.submitted, rest.exit⟩

/-- Observable outcome of the whole sweep: the returned `(deleted, err)`
pair together with whether `group.Wait()` was reached (`waited`), or a
panic, or fuel exhaustion of the model. -/
inductive SweepOutcome where
  | ret (deleted : Nat) (err : Option GoError) (waited : Bool)
  | panicked
  | outOfFuel
deriving DecidableEq

/-- Trace of a whole `PurgeUntaggedManifests` call. -/
structure SweepTrace where
  listCalls : List String
  submitted : List String
  outcome : SweepOutcome
deriving DecidableEq

/-- `PurgeUntaggedManifests` (part_001 lines 101-149): run the pagination
loop from the empty cursor; if the loop broke out normally, wait on the
group and return the counter and first error; the early returns use the
literal `0` and never reach `group.Wait()` (`waited = false`). -/
def PurgeUntaggedManifests (fuel : Nat) (listM : String → ListReply)
    (isDel : ManifestAttributesBase → Bool) (delM : String → DeleteReply)
    (toSkip : List String) : SweepTrace :=
  let t := purgeUntaggedLoop listM isDel toSkip fuel ""
  match t.exit with
  | .broke =>
    let r := runTasks delM t.submitted
    ⟨t.listCalls, t.submitted, .ret r.1 r.2 true⟩
  | .repoGone => ⟨t.listCalls, t.submitted, .ret 0 none false⟩
  | .failed e => ⟨t.listCalls, t.submitted, .ret 0 (some e) false⟩
  | .panicked => ⟨t.listCalls, t.submitted, .panicked⟩
  | .outOfFuel => ⟨t.listCalls, t.submitted, .outOfFuel⟩

end PurgerFmt

namespace PurgerLog

/-- Body of one tag-deletion task submitted by `PurgeTags`
(purger.go lines 50-68): identical decision structure to the fmt-logging
version, differing only in the logging side effects. -/
def runTagTask (delTag : String → DeleteReply) (tag : TagAttributesBase) :
    Option (Bool × Option GoError) :=
  match tag.Name with
  | none => none
  | some name =>
    let (resp, err) := delTag name
    match err with
    | none => some (true, none)
    | some e => if isNotFound resp then some (true, none) else some (false, some e)

/-- The task group of `PurgeTags` (purger.go), linearized in submission
order. -/
def purgeTagsRun (delTag : String → DeleteReply) :
    List TagAttributesBase → Option (Nat × Option GoError)
  | [] => some (0, none)
  | t :: ts =>
    match runTagTask delTag t with
    | none => none
    | some (counted, te) =>
      match purgeTagsRun delTag ts with
      | none => none
      | some (c, e) =>
        some ((if counted then 1 else 0) + c, if te.isSome then te else e)

/-- `PurgeTags` (purger.go lines 39-72). -/
def PurgeTags (delTag : String → DeleteReply) (tags : List TagAttributesBase) :
    Option (Nat × Option GoError) :=
  purgeTagsRun delTag tags

/-- Body of one manifest-deletion task of `PurgeManifests` (purger.go lines
86-107), inlined in the source rather than factored through a helper. -/
def runManifestTask (delM : String → DeleteReply) (manifest : String) :
    Bool × Option GoError :=
  let (resp, err) := delM manifest
  match err with
  | none => (true, none)
  | some e => if isNotFound resp then (true, none) else (false, some e)

/-- The manifest-deletion task group of `PurgeManifests` (purger.go),
linearized in submission order. -/
def runManifests (delM : String → DeleteReply) : List String → Nat × Option GoError
  | [] => (0, none)
  | d :: ds =>
    let (counted, te) := runManifestTask delM d
    let (c, e) := runManifests delM ds
    ((if counted then 1 else 0) + c, if te.isSome then te else e)

/-- `PurgeManifests` (purger.go lines 75-118). -/
def PurgeManifests (delM : String → DeleteReply) (manifests : List String) :
    Nat × Option GoError :=
  runManifests delM manifests

end PurgerLog

/-- First error, in submission order, among the manifest-deletion tasks of a
digest list: the error `group.Wait()` reports under the submission-order
linearization. -/
def firstErrM (delM : String → DeleteReply) : List String → Option GoError
  | [] => none
  | d :: ds =>
    match (PurgerFmt.deleteManifest delM d).2 with
    | some e => some e
    | none => firstErrM delM ds

/-- Whether the tag-deletion task for `t` increments the counter (false also
when the task panics, a case only used under a no-panic hypothesis). -/
def tagCounted (delTag : String → DeleteReply) (t : TagAttributesBase) : Bool :=
  match PurgerFmt.runTagTask delTag t with
  | some (counted, _) => counted
  | none => false

/-- First error, in submission order, among the tag-deletion tasks. -/
def firstTagErr (delTag : String → DeleteReply) : List TagAttributesBase → Option GoError
  | [] => none
  | t :: ts =>
    match PurgerFmt.runTagTask delTag t with
    | some (_, some e) => some e
    | _ => firstTagErr delTag ts

/-- A registry whose delete calls always succeed. -/
def delOk : String → DeleteReply := fun _ => (none, none)

/-- A registry whose delete calls always fail with an HTTP 404 response. -/
def del404 : String → DeleteReply := fun _ => (some ⟨true, 404⟩, some "not found")

/-- A registry where deleting the digest `bad` fails hard and every other
delete succeeds. -/
def delOneBad : String → DeleteReply :=
  fun d => if d = "bad" then (none, some "boom") else (none, none)

/-- The external deletability predicate accepting every manifest. -/
def allDeletable : ManifestAttributesBase → Bool := fun _ => true

/-- A repository listing with a single nonempty page whose only record lacks
a digest. -/
def listNilDigest : String → ListReply := fun cursor =>
  if cursor = "" then (some ⟨true, 200, some [⟨none, "orphan"⟩]⟩, none)
  else (some ⟨true, 200, some []⟩, none)

/-- A repository listing whose first page holds one deletable manifest and
whose second list call fails with a plain (non-404) error. -/
def listThenFail : String → ListReply := fun cursor =>
  if cursor = "" then (some ⟨true, 200, some [⟨some "shaX", ""⟩]⟩, none)
  else (none, some "boom")

/-- A repository listing that yields three pages of one manifest each, keyed
by the pagination cursor, followed by empty pages. -/
def threePageListing (m1 m2 m3 : ManifestAttributesBase) (d1 d2 : String) :
    String → ListReply := fun cursor =>
  if cursor = "" then (some ⟨true, 200, some [m1]⟩, none)
  else if cursor = d1 then (some ⟨true, 200, some [m2]⟩, none)
  else if cursor = d2 then (some ⟨true, 200, some [m3]⟩, none)
  else (some ⟨true, 200, some []⟩, none)

/-- A repository whose listing always reports HTTP 404 (repository gone). -/
def listRepoGone : String → ListReply :=
  fun _ => (some ⟨true, 404, none⟩, some "repository not found")

/-- A repository listing with one page of three manifests `sha-a`, `sha-b`,
`sha-c`, followed by empty pages. -/
def listABC : String → ListReply := fun cursor =>
  if cursor = "" then
    (some ⟨true, 200, some [⟨some "sha-a", ""⟩, ⟨some "sha-b", ""⟩, ⟨some "sha-c", ""⟩]⟩, none)
  else (some ⟨true, 200, some []⟩, none)

/-- A manifest-deletion task increments the counter exactly when it returns
no error. -/
theorem deleteManifest_counted_iff (delM : String → DeleteReply) (d : String) :
    (PurgerFmt.deleteManifest delM d).1 = true ↔ (PurgerFmt.deleteManifest delM d).2 = none := by
  rcases hd : delM d with ⟨resp, err⟩
  unfold PurgerFmt.deleteManifest
  rw [hd]
  cases err with
  | none => simp
  | some e => by_cases hnf : isNotFound resp <;> simp [hnf]

/-- The linearized manifest task group returns the number of counting tasks
and the first task error in submission order. -/
theorem runTasks_spec (delM : String → DeleteReply) (ds : List String) :
    PurgerFmt.runTasks delM ds =
      ((ds.filter fun d => (PurgerFmt.deleteManifest delM d).1).length, firstErrM delM ds) := by
  induction ds with
  | nil => rfl
  | cons d ds ih =>
    simp only [PurgerFmt.runTasks, ih, List.filter_cons, firstErrM]
    rcases h : PurgerFmt.deleteManifest delM d with ⟨counted, te⟩
    cases counted <;> cases te <;> simp_all [Nat.add_comm]

/-- The first task error is absent exactly when every task returns no
error. -/
theorem firstErrM_eq_none_iff (delM : String → DeleteReply) (ds : List String) :
    firstErrM delM ds = none ↔ ∀ d ∈ ds, (PurgerFmt.deleteManifest delM d).2 = none := by
  induction ds with
  | nil => simp [firstErrM]
  | cons d ds ih =>
    cases h : (PurgerFmt.deleteManifest delM d).2 <;> simp [firstErrM, h, ih]

/-- Counting the accepted and the rejected elements of a list covers it. -/
theorem length_filter_bool_split {α : Type} (p : α → Bool) (l : List α) :
    (l.filter p).length + (l.filter fun a => !(p a)).length = l.length := by
  induction l with
  | nil => simp
  | cons a l ih => cases h : p a <;> simp [List.filter_cons, h] <;> omega

/-- A tag-deletion task that runs (no panic) increments the counter exactly
when it returns no error. -/
theorem runTagTask_counted_iff (delTag : String → DeleteReply) (t : TagAttributesBase)
    (counted : Bool) (te : Option GoError)
    (h : PurgerFmt.runTagTask delTag t = some (counted, te)) :
    counted = true ↔ te = none := by
  rcases t with ⟨name⟩
  cases name with
  | none => simp [PurgerFmt.runTagTask] at h
  | some n =>
    rcases hd : delTag n with ⟨resp, err⟩
    unfold PurgerFmt.runTagTask at h
    simp only [hd] at h
    cases err with
    | none => simp at h; simp [h.1, h.2]
    | some e =>
      by_cases hnf : isNotFound resp <;> simp [hnf] at h <;>
        rcases h with ⟨h1, h2⟩ <;> simp [h1, ← h2]

/-- The linearized tag task group, when no task panics, returns the number
of counting tasks and the first task error in submission order. -/
theorem purgeTagsRun_spec (delTag : String → DeleteReply) (tags : List TagAttributesBase)
    (h : ∀ t ∈ tags, (PurgerFmt.runTagTask delTag t).isSome = true) :
    PurgerFmt.purgeTagsRun delTag tags =
      some ((tags.filter (tagCounted delTag)).length, firstTagErr delTag tags) := by
  induction tags with
  | nil => rfl
  | cons t ts ih =>
    have ht : (PurgerFmt.runTagTask delTag t).isSome = true := h t (by simp)
    rcases hr : PurgerFmt.runTagTask delTag t with _ | ⟨counted, te⟩
    · rw [hr] at ht; simp at ht
    · have ih2 := ih (fun u hu => h u (by simp [hu]))
      simp only [PurgerFmt.purgeTagsRun, hr, ih2, List.filter_cons, firstTagErr,
        tagCounted]
      cases counted <;> cases te <;> simp_all [Nat.add_comm]

/-- A panicking tag task makes the whole linearized group panic. -/
theorem purgeTagsRun_none_of_mem (delTag : String → DeleteReply)
    (tags : List TagAttributesBase) (t : TagAttributesBase)
    (ht : t ∈ tags) (hn : PurgerFmt.runTagTask delTag t = none) :
    PurgerFmt.purgeTagsRun delTag tags = none := by
  induction tags with
  | nil => simp at ht
  | cons u us ih =>
    cases ht with
    | head => simp [PurgerFmt.purgeTagsRun, hn]
    | tail _ htm =>
      cases hr : PurgerFmt.runTagTask delTag u with
      | none => simp [PurgerFmt.purgeTagsRun, hr]
      | some r =>
        rcases r with ⟨counted, te⟩
        simp [PurgerFmt.purgeTagsRun, hr, ih htm]

/-- The two embedded tag-task bodies agree (the sources differ only in
logging). -/
theorem runTagTask_fmt_log_eq (delTag : String → DeleteReply) (t : TagAttributesBase) :
    PurgerLog.runTagTask delTag t = PurgerFmt.runTagTask delTag t := rfl

/-- The two embedded tag task groups agree. -/
theorem purgeTagsRun_fmt_log_eq (delTag : String → DeleteReply)
    (tags : List TagAttributesBase) :
    PurgerLog.purgeTagsRun delTag tags = PurgerFmt.purgeTagsRun delTag tags := by
  induction tags with
  | nil => rfl
  | cons t ts ih =>
    simp only [PurgerLog.purgeTagsRun, PurgerFmt.purgeTagsRun, runTagTask_fmt_log_eq, ih]

/-- The two embedded manifest-task bodies agree. -/
theorem runManifestTask_eq_deleteManifest (delM : String → DeleteReply) (d : String) :
    PurgerLog.runManifestTask delM d = PurgerFmt.deleteManifest delM d := rfl

/-- The two embedded manifest task groups agree. -/
theorem runManifests_eq_runTasks (delM : String → DeleteReply) (ds : List String) :
    PurgerLog.runManifests delM ds = PurgerFmt.runTasks delM ds := by
  induction ds with
  | nil => rfl
  | cons d ds ih =>
    simp only [PurgerLog.runManifests, PurgerFmt.runTasks,
      runManifestTask_eq_deleteManifest, ih]


/-- The list-call trace of the sweep is the trace of its pagination loop,
whatever the exit. -/
theorem sweep_listCalls (fuel : Nat) (listM : String → ListReply)
    (isDel : ManifestAttributesBase → Bool) (delM : String → DeleteReply)
    (toSkip : List String) :
    (PurgerFmt.PurgeUntaggedManifests fuel listM isDel delM toSkip).listCalls =
      (PurgerFmt.purgeUntaggedLoop listM isDel toSkip fuel "").listCalls := by
  rcases htr : PurgerFmt.purgeUntaggedLoop listM isDel toSkip fuel "" with ⟨lc, sub, ex⟩
  unfold PurgerFmt.PurgeUntaggedManifests
  rw [htr]
  cases ex <;> rfl

/-- The submission trace of the sweep is the trace of its pagination loop,
whatever the exit. -/
theorem sweep_submitted (fuel : Nat) (listM : String → ListReply)
    (isDel : ManifestAttributesBase → Bool) (delM : String → DeleteReply)
    (toSkip : List String) :
    (PurgerFmt.PurgeUntaggedManifests fuel listM isDel delM toSkip).submitted =
      (PurgerFmt.purgeUntaggedLoop listM isDel toSkip fuel "").submitted := by
  rcases htr : PurgerFmt.purgeUntaggedLoop listM isDel toSkip fuel "" with ⟨lc, sub, ex⟩
  unfold PurgerFmt.PurgeUntaggedManifests
  rw [htr]
  cases ex <;> rfl

/-- When the pagination loop breaks out normally, the sweep joins the group
and returns the counter with the first task error. -/
theorem sweep_outcome_broke (fuel : Nat) (listM : String → ListReply)
    (isDel : ManifestAttributesBase → Bool) (delM : String → DeleteReply)
    (toSkip : List String)
    (h : (PurgerFmt.purgeUntaggedLoop listM isDel toSkip fuel "").exit =
      PurgerFmt.LoopExit.broke) :
    (PurgerFmt.PurgeUntaggedManifests fuel listM isDel delM toSkip).outcome =
      .ret (PurgerFmt.runTasks delM
          (PurgerFmt.purgeUntaggedLoop listM isDel toSkip fuel "").submitted).1
        (PurgerFmt.runTasks delM
          (PurgerFmt.purgeUntaggedLoop listM isDel toSkip fuel "").submitted).2
        true := by
  rcases htr : PurgerFmt.purgeUntaggedLoop listM isDel toSkip fuel "" with ⟨lc, sub, ex⟩
  rw [htr] at h
  simp only at h
  subst h
  unfold PurgerFmt.PurgeUntaggedManifests
  rw [htr]

/-- When a list call reported repository-not-found, the sweep returns the
literal `(0, nil)` without joining the group. -/
theorem sweep_outcome_repoGone (fuel : Nat) (listM : String → ListReply)
    (isDel : ManifestAttributesBase → Bool) (delM : String → DeleteReply)
    (toSkip : List String)
    (h : (PurgerFmt.purgeUntaggedLoop listM isDel toSkip fuel "").exit =
      PurgerFmt.LoopExit.repoGone) :
    (PurgerFmt.PurgeUntaggedManifests fuel listM isDel delM toSkip).outcome =
      .ret 0 none false := by
  rcases htr : PurgerFmt.purgeUntaggedLoop listM isDel toSkip fuel "" with ⟨lc, sub, ex⟩
  rw [htr] at h
  simp only at h
  subst h
  unfold PurgerFmt.PurgeUntaggedManifests
  rw [htr]

/-- When a list call failed with a plain error, the sweep returns the
literal `0` with that error, without joining the group. -/
theorem sweep_outcome_failed (fuel : Nat) (listM : String → ListReply)
    (isDel : ManifestAttributesBase → Bool) (delM : String → DeleteReply)
    (toSkip : List String) (e : GoError)
    (h : (PurgerFmt.purgeUntaggedLoop listM isDel toSkip fuel "").exit =
      PurgerFmt.LoopExit.failed e) :
    (PurgerFmt.PurgeUntaggedManifests fuel listM isDel delM toSkip).outcome =
      .ret 0 (some e) false := by
  rcases htr : PurgerFmt.purgeUntaggedLoop listM isDel toSkip fuel "" with ⟨lc, sub, ex⟩
  rw [htr] at h
  simp only at h
  subst h
  unfold PurgerFmt.PurgeUntaggedManifests
  rw [htr]

/-- The count a returning `purgeTagsRun` yields is the number of counting
tasks. -/
theorem purgeTagsRun_count (delTag : String → DeleteReply)
    (tags : List TagAttributesBase) (c : Nat) (e : Option GoError)
    (h : PurgerFmt.purgeTagsRun delTag tags = some (c, e)) :
    c = (tags.filter (tagCounted delTag)).length := by
  induction tags generalizing c e with
  | nil =>
    simp [PurgerFmt.purgeTagsRun] at h
    simp [← h.1]
  | cons t ts ih =>
    cases hr : PurgerFmt.runTagTask delTag t with
    | none => simp [PurgerFmt.purgeTagsRun, hr] at h
    | some r =>
      rcases r with ⟨counted, te⟩
      cases hrest : PurgerFmt.purgeTagsRun delTag ts with
      | none => simp [PurgerFmt.purgeTagsRun, hr, hrest] at h
      | some p =>
        rcases p with ⟨c0, e0⟩
        simp only [PurgerFmt.purgeTagsRun, hr, hrest] at h
        have hc0 := ih c0 e0 hrest
        have hc : (if counted = true then 1 else 0) + c0 = c := by
          simpa using congrArg Prod.fst (Option.some.inj h)
        rw [List.filter_cons]
        simp only [tagCounted, hr]
        cases counted with
        | false => simp_all
        | true => simp_all; omega

/-- A delete reply that is a success or a 404 makes `deleteManifest` count
and return nil. -/
theorem deleteManifest_ok (delM : String → DeleteReply) (d : String)
    (hok : (delM d).2 = none ∨ isNotFound (delM d).1 = true) :
    PurgerFmt.deleteManifest delM d = (true, none) := by
  rcases hd : delM d with ⟨resp, err⟩
  rw [hd] at hok
  unfold PurgerFmt.deleteManifest
  rw [hd]
  cases err with
  | none => rfl
  | some e =>
    simp only at hok
    rcases hok with hok | hok
    · simp at hok
    · simp [hok]

/-- A tag with a present name whose delete reply is a success or a 404 makes
the tag task count and return nil. -/
theorem runTagTask_ok (delTag : String → DeleteReply) (t : TagAttributesBase) (n : String)
    (hn : t.Name = some n)
    (hok : (delTag n).2 = none ∨ isNotFound (delTag n).1 = true) :
    PurgerFmt.runTagTask delTag t = some (true, none) := by
  rcases hd : delTag n with ⟨resp, err⟩
  rw [hd] at hok
  simp only [PurgerFmt.runTagTask, hn, hd]
  cases err with
  | none => rfl
  | some e =>
    simp only at hok
    rcases hok with hok | hok
    · simp at hok
    · simp [hok]

/-- When every tag task counts without error, there is no first tag error. -/
theorem firstTagErr_eq_none (delTag : String → DeleteReply)
    (tags : List TagAttributesBase)
    (h : ∀ t ∈ tags, PurgerFmt.runTagTask delTag t = some (true, none)) :
    firstTagErr delTag tags = none := by
  induction tags with
  | nil => rfl
  | cons t ts ih =>
    have := h t (by simp)
    simp only [firstTagErr, this]
    exact ih fun u hu => h u (by simp [hu])

/-- A manifest task reports an error exactly when it does not count. -/
theorem deleteManifest_err_isSome (delM : String → DeleteReply) (d : String) :
    ((PurgerFmt.deleteManifest delM d).2).isSome = !(PurgerFmt.deleteManifest delM d).1 := by
  rcases h : PurgerFmt.deleteManifest delM d with ⟨counted, te⟩
  have hiff := deleteManifest_counted_iff delM d
  rw [h] at hiff
  cases counted <;> cases te <;> simp_all

/-- A digest submitted from a page comes from a page record carrying that
digest, accepted by the deletability predicate and absent from the skip
set. -/
theorem mem_pageSubmissions (isDel : ManifestAttributesBase → Bool)
    (toSkip : List String) (ms : List ManifestAttributesBase) (d : String)
    (hd : d ∈ PurgerFmt.pageSubmissions isDel toSkip ms) :
    toSkip.contains d = false ∧
      ∃ m ∈ ms, m.Digest = some d ∧ isDel m = true := by
  unfold PurgerFmt.pageSubmissions at hd
  rw [List.mem_filterMap] at hd
  obtain ⟨m, hm, hf⟩ := hd
  cases hdig : m.Digest with
  | none => rw [hdig] at hf; simp at hf
  | some d0 =>
    rw [hdig] at hf
    by_cases hdel : isDel m
    · by_cases hsk : d0 ∈ toSkip
      · simp [hdel, hsk] at hf
      · simp [hdel, hsk] at hf
        subst hf
        refine ⟨?_, m, hm, hdig, by simp [hdel]⟩
        simpa using hsk
    · simp [hdel] at hf

/-- C1: the claim fails on the code.  A nonempty page whose last record
lacks a digest is skipped for deletion by the per-record guard, but the
cursor advance `lastManifestDigest = *manifests[len(manifests)-1].Digest`
has no nil check, so `PurgeUntaggedManifests` re-derives the cursor from a
nil digest and panics: on a single-page listing whose only record has a nil
digest the sweep ends in the panic outcome after submitting nothing. -/
theorem c1_nil_digest_last_record_panics :
    PurgerFmt.PurgeUntaggedManifests 3 listNilDigest allDeletable delOk [] =
      ⟨[""], [], .panicked⟩ := by decide

/-- C6: when a list call reports repository-not-found (error with a
404-shaped response), the pagination loop stops there with the `repoGone`
exit, and the whole sweep — when this happens on the first call — returns
`(0, nil)`. -/
theorem c6_repo_notFound_returns_zero_nil (listM : String → ListReply)
    (isDel : ManifestAttributesBase → Bool) (delM : String → DeleteReply)
    (toSkip : List String) (fuel : Nat) (cursor : String)
    (res : ManifestsResult) (e : GoError)
    (hres : listM cursor = (some res, some e))
    (hinner : res.hasInner = true) (hsc : res.statusCode = 404) :
    PurgerFmt.purgeUntaggedLoop listM isDel toSkip (fuel + 1) cursor =
      ⟨[cursor], [], .repoGone⟩ ∧
    (cursor = "" →
      (PurgerFmt.PurgeUntaggedManifests (fuel + 1) listM isDel delM toSkip).outcome =
        .ret 0 none false) := by
  have hloop : PurgerFmt.purgeUntaggedLoop listM isDel toSkip (fuel + 1) cursor =
      ⟨[cursor], [], .repoGone⟩ := by
    simp only [PurgerFmt.purgeUntaggedLoop, hres]
    simp [listNotFound, hinner, hsc]
  refine ⟨hloop, fun hcur => ?_⟩
  subst hcur
  exact sweep_outcome_repoGone (fuel + 1) listM isDel delM toSkip (by rw [hloop])

/-- Witness for C6 at a concrete repository whose listing always reports
HTTP 404. -/
theorem c6_repo_notFound_returns_zero_nil_witness :
    listRepoGone "" = (some ⟨true, 404, none⟩, some "repository not found") ∧
    (PurgerFmt.PurgeUntaggedManifests 4 listRepoGone allDeletable delOk []).outcome =
      .ret 0 none false := by
  refine ⟨rfl, ?_⟩
  exact (c6_repo_notFound_returns_zero_nil listRepoGone allDeletable delOk [] 3 ""
    ⟨true, 404, none⟩ "repository not found" rfl rfl rfl).2 rfl

/-- C8: when a list call fails (or reports repository-not-found) the sweep
returns immediately with the literal count 0 and `waited = false`: the task
group is never joined, so deletions already submitted for earlier pages are
not reflected in the returned count.  Concretely, on a listing whose first
page submits one deletion that would succeed and whose second list call
fails, the sweep returns `(0, "boom")` without waiting although the
submitted task yields `(1, nil)`. -/
theorem c8_list_failure_abandons_submitted_tasks :
    (∀ (listM : String → ListReply) (isDel : ManifestAttributesBase → Bool)
        (delM : String → DeleteReply) (toSkip : List String) (fuel : Nat)
        (e : GoError),
      (PurgerFmt.purgeUntaggedLoop listM isDel toSkip fuel "").exit =
        PurgerFmt.LoopExit.failed e →
      (PurgerFmt.PurgeUntaggedManifests fuel listM isDel delM toSkip).outcome =
        .ret 0 (some e) false) ∧
    (∀ (listM : String → ListReply) (isDel : ManifestAttributesBase → Bool)
        (delM : String → DeleteReply) (toSkip : List String) (fuel : Nat),
      (PurgerFmt.purgeUntaggedLoop listM isDel toSkip fuel "").exit =
        PurgerFmt.LoopExit.repoGone →
      (PurgerFmt.PurgeUntaggedManifests fuel listM isDel delM toSkip).outcome =
        .ret 0 none false) ∧
    (PurgerFmt.PurgeUntaggedManifests 5 listThenFail allDeletable delOk [] =
        ⟨["", "shaX"], ["shaX"], .ret 0 (some "boom") false⟩ ∧
      PurgerFmt.runTasks delOk ["shaX"] = (1, none)) := by
  refine ⟨?_, ?_, by decide, by decide⟩
  · intro listM isDel delM toSkip fuel e h
    exact sweep_outcome_failed fuel listM isDel delM toSkip e h
  · intro listM isDel delM toSkip fuel h
    exact sweep_outcome_repoGone fuel listM isDel delM toSkip h

/-- Witness for C8 at the concrete failing listing. -/
theorem c8_list_failure_abandons_submitted_tasks_witness :
    (PurgerFmt.purgeUntaggedLoop listThenFail allDeletable [] 5 "").exit =
      PurgerFmt.LoopExit.failed "boom" ∧
    (PurgerFmt.PurgeUntaggedManifests 5 listThenFail allDeletable delOk []).outcome =
      .ret 0 (some "boom") false := by
  refine ⟨by decide, ?_⟩
  exact c8_list_failure_abandons_submitted_tasks.1 listThenFail allDeletable delOk []
    5 "boom" (by decide)

/-- C9: `PurgeTags` dereferences `*tag.Name` inside the submitted task with
no nil check: a tag with a nil name makes the task body panic (and the call
produce no `(count, error)` result) in both versions of the purger. -/
theorem c9_nil_tag_name_panics (delTag : String → DeleteReply)
    (tags : List TagAttributesBase) (t : TagAttributesBase)
    (ht : t ∈ tags) (hn : t.Name = none) :
    PurgerFmt.runTagTask delTag t = none ∧
    PurgerFmt.PurgeTags delTag tags = none ∧
    PurgerLog.PurgeTags delTag tags = none := by
  have htask : PurgerFmt.runTagTask delTag t = none := by
    simp [PurgerFmt.runTagTask, hn]
  refine ⟨htask, ?_, ?_⟩
  · exact purgeTagsRun_none_of_mem delTag tags t ht htask
  · show PurgerLog.purgeTagsRun delTag tags = none
    rw [purgeTagsRun_fmt_log_eq]
    exact purgeTagsRun_none_of_mem delTag tags t ht htask

/-- Witness for C9 on a two-tag list whose second tag has a nil name. -/
theorem c9_nil_tag_name_panics_witness :
    (⟨none⟩ : TagAttributesBase) ∈ [(⟨some "ok"⟩ : TagAttributesBase), ⟨none⟩] ∧
    PurgerFmt.PurgeTags delOk [⟨some "ok"⟩, ⟨none⟩] = none := by
  refine ⟨by decide, ?_⟩
  exact (c9_nil_tag_name_panics delOk [⟨some "ok"⟩, ⟨none⟩] ⟨none⟩ (by decide) rfl).2.1

/-- C10: the two versions of the tag purge — `PurgeTags` in
`internal/worker/purger.go` and in the fmt-logging worker file — compute
the same `(deletedCount, error)` result (including the same panic
behaviour) for every tag list and every behaviour of the delete
collaborator; they differ only in logging side effects, which the embedding
does not observe. -/
theorem c10_purgeTags_versions_agree (delTag : String → DeleteReply)
    (tags : List TagAttributesBase) :
    PurgerLog.PurgeTags delTag tags = PurgerFmt.PurgeTags delTag tags := by
  show PurgerLog.purgeTagsRun delTag tags = PurgerFmt.purgeTagsRun delTag tags
  exact purgeTagsRun_fmt_log_eq delTag tags

/-- C2: counterexample to the claim as stated.  On `listThenFail` the first
page submits one deletion whose task succeeds and counts, the second list
call fails, and `PurgeUntaggedManifests` returns deletedCount 0 with the
error instead of the partial count of completed deletions. -/
theorem c2_sweep_count_counterexample :
    PurgerFmt.PurgeUntaggedManifests 5 listThenFail allDeletable delOk [] =
      ⟨["", "shaX"], ["shaX"], .ret 0 (some "boom") false⟩ ∧
    PurgerFmt.deleteManifest delOk "shaX" = (true, none) := by decide

/-- C2 (amended): `PurgeTags` and `PurgeManifests` always return the
authoritative count of counting tasks alongside any error; the untagged
sweep does so only when the pagination loop completes and the group is
joined — a failing list call makes it return the literal count 0 with the
error, regardless of deletions already submitted. -/
theorem c2_amended_partial_counts (delTag delM : String → DeleteReply)
    (tags : List TagAttributesBase) (ms : List String)
    (listM : String → ListReply) (isDel : ManifestAttributesBase → Bool)
    (toSkip : List String) (fuel : Nat) :
    (PurgerFmt.PurgeManifests delM ms).1 =
      (ms.filter fun d => (PurgerFmt.deleteManifest delM d).1).length ∧
    (∀ c e, PurgerFmt.PurgeTags delTag tags = some (c, e) →
      c = (tags.filter (tagCounted delTag)).length) ∧
    ((PurgerFmt.purgeUntaggedLoop listM isDel toSkip fuel "").exit =
        PurgerFmt.LoopExit.broke →
      (PurgerFmt.PurgeUntaggedManifests fuel listM isDel delM toSkip).outcome =
        .ret (PurgerFmt.runTasks delM
            (PurgerFmt.purgeUntaggedLoop listM isDel toSkip fuel "").submitted).1
          (PurgerFmt.runTasks delM
            (PurgerFmt.purgeUntaggedLoop listM isDel toSkip fuel "").submitted).2
          true) ∧
    (∀ e, (PurgerFmt.purgeUntaggedLoop listM isDel toSkip fuel "").exit =
        PurgerFmt.LoopExit.failed e →
      (PurgerFmt.PurgeUntaggedManifests fuel listM isDel delM toSkip).outcome =
        .ret 0 (some e) false) := by
  refine ⟨?_, ?_, ?_, ?_⟩
  · show (PurgerFmt.runTasks delM ms).1 = _
    rw [runTasks_spec]
  · intro c e h
    exact purgeTagsRun_count delTag tags c e h
  · intro h
    exact sweep_outcome_broke fuel listM isDel delM toSkip h
  · intro e h
    exact sweep_outcome_failed fuel listM isDel delM toSkip e h

/-- Witness for the amended C2: a tag list with one hard failure still
reports the partial count 1, and the concrete failing sweep returns the
literal 0. -/
theorem c2_amended_partial_counts_witness :
    PurgerFmt.PurgeTags delOneBad [⟨some "bad"⟩, ⟨some "t"⟩] = some (1, some "boom") ∧
    1 = ([(⟨some "bad"⟩ : TagAttributesBase), ⟨some "t"⟩].filter
      (tagCounted delOneBad)).length ∧
    (PurgerFmt.purgeUntaggedLoop listThenFail allDeletable [] 5 "").exit =
      PurgerFmt.LoopExit.failed "boom" ∧
    (PurgerFmt.PurgeUntaggedManifests 5 listThenFail allDeletable delOk []).outcome =
      .ret 0 (some "boom") false := by
  refine ⟨by decide, ?_, by decide, ?_⟩
  · exact (c2_amended_partial_counts delOneBad delOk [⟨some "bad"⟩, ⟨some "t"⟩] []
      listThenFail allDeletable [] 5).2.1 1 (some "boom") (by decide)
  · exact (c2_amended_partial_counts delOneBad delOk [⟨some "bad"⟩, ⟨some "t"⟩] []
      listThenFail allDeletable [] 5).2.2.2 "boom" (by decide)

/-- C3: when every delete reply is a success or an HTTP 404, `PurgeTags`
returns `(len(tags), nil)` and `PurgeManifests` returns `(len(ms), nil)`:
a not-found outcome counts exactly like a success and propagates no
error. -/
theorem c3_notFound_counts_as_success (delTag delM : String → DeleteReply)
    (tags : List TagAttributesBase) (ms : List String)
    (htags : ∀ t ∈ tags, ∃ n, t.Name = some n ∧
      ((delTag n).2 = none ∨ isNotFound (delTag n).1 = true))
    (hms : ∀ d ∈ ms, ((delM d).2 = none ∨ isNotFound (delM d).1 = true)) :
    PurgerFmt.PurgeTags delTag tags = some (tags.length, none) ∧
    PurgerFmt.PurgeManifests delM ms = (ms.length, none) := by
  have htask : ∀ t ∈ tags, PurgerFmt.runTagTask delTag t = some (true, none) := by
    intro t ht
    obtain ⟨n, hn, hok⟩ := htags t ht
    exact runTagTask_ok delTag t n hn hok
  have hmtask : ∀ d ∈ ms, PurgerFmt.deleteManifest delM d = (true, none) := fun d hd =>
    deleteManifest_ok delM d (hms d hd)
  constructor
  · show PurgerFmt.purgeTagsRun delTag tags = some (tags.length, none)
    have hfil : tags.filter (tagCounted delTag) = tags :=
      List.filter_eq_self.mpr fun t ht => by simp [tagCounted, htask t ht]
    rw [purgeTagsRun_spec delTag tags (fun t ht => by rw [htask t ht]; rfl), hfil,
      firstTagErr_eq_none delTag tags htask]
  · show PurgerFmt.runTasks delM ms = (ms.length, none)
    have hfil : (ms.filter fun d => (PurgerFmt.deleteManifest delM d).1) = ms :=
      List.filter_eq_self.mpr fun d hd => by rw [hmtask d hd]
    rw [runTasks_spec, hfil,
      (firstErrM_eq_none_iff delM ms).mpr fun d hd => by rw [hmtask d hd]]

/-- Witness for C3: always-succeeding tag deletes and always-404 manifest
deletes both count everything and return nil. -/
theorem c3_notFound_counts_as_success_witness :
    PurgerFmt.PurgeTags delOk [⟨some "v1"⟩, ⟨some "v2"⟩] = some (2, none) ∧
    PurgerFmt.PurgeManifests del404 ["m1", "m2", "m3"] = (3, none) := by
  have h := c3_notFound_counts_as_success delOk del404
    [⟨some "v1"⟩, ⟨some "v2"⟩] ["m1", "m2", "m3"]
    (by
      intro t ht
      simp only [List.mem_cons, List.not_mem_nil, or_false] at ht
      rcases ht with h | h <;> subst h
      · exact ⟨"v1", rfl, Or.inl rfl⟩
      · exact ⟨"v2", rfl, Or.inl rfl⟩)
    (by intro d hd; right; rfl)
  exact h

/-- C4: for both purger versions, deletedCount plus the number of targets
whose task reported a non-recoverable (non-404) error equals the number of
targets submitted; in particular a list with exactly one hard failure
yields deletedCount `len - 1` and a non-nil error.  (A non-panicking tag
task counts exactly when it reports no error, so `!(tagCounted)` counts the
erroring tag tasks.) -/
theorem c4_count_plus_errors_is_total (delTag delM : String → DeleteReply)
    (tags : List TagAttributesBase) (ms : List String) :
    (PurgerFmt.PurgeManifests delM ms).1 +
      (ms.filter fun d => ((PurgerFmt.deleteManifest delM d).2).isSome).length
        = ms.length ∧
    (PurgerLog.PurgeManifests delM ms).1 +
      (ms.filter fun d => ((PurgerLog.runManifestTask delM d).2).isSome).length
        = ms.length ∧
    (∀ c e, PurgerFmt.PurgeTags delTag tags = some (c, e) →
      c + (tags.filter fun t => !(tagCounted delTag t)).length = tags.length) ∧
    ((ms.filter fun d => ((PurgerFmt.deleteManifest delM d).2).isSome).length = 1 →
      (PurgerFmt.PurgeManifests delM ms).1 = ms.length - 1 ∧
      (PurgerFmt.PurgeManifests delM ms).2 ≠ none) := by
  have hmain : (PurgerFmt.PurgeManifests delM ms).1 +
      (ms.filter fun d => ((PurgerFmt.deleteManifest delM d).2).isSome).length
        = ms.length := by
    have hfil : (ms.filter fun d => ((PurgerFmt.deleteManifest delM d).2).isSome) =
        (ms.filter fun d => !(PurgerFmt.deleteManifest delM d).1) :=
      List.filter_congr fun d _ => deleteManifest_err_isSome delM d
    rw [hfil]
    show (PurgerFmt.runTasks delM ms).1 + _ = _
    rw [runTasks_spec]
    exact length_filter_bool_split (fun d => (PurgerFmt.deleteManifest delM d).1) ms
  refine ⟨hmain, ?_, ?_, ?_⟩
  · show (PurgerLog.runManifests delM ms).1 + _ = _
    simp only [runManifests_eq_runTasks, runManifestTask_eq_deleteManifest]
    exact hmain
  · intro c e h
    rw [purgeTagsRun_count delTag tags c e h]
    exact length_filter_bool_split (tagCounted delTag) tags
  · intro h1
    constructor
    · rw [h1] at hmain
      omega
    · have hpos : (ms.filter fun d =>
          ((PurgerFmt.deleteManifest delM d).2).isSome) ≠ [] := by
        intro hnil
        rw [hnil] at h1
        simp at h1
      obtain ⟨d, hd⟩ := List.exists_mem_of_ne_nil _ hpos
      have hmem := List.mem_filter.mp hd
      show (PurgerFmt.runTasks delM ms).2 ≠ none
      rw [runTasks_spec]
      intro hnone
      have hzero := (firstErrM_eq_none_iff delM ms).mp hnone d hmem.1
      rw [hzero] at hmem
      simp at hmem

/-- Witness for C4: a three-manifest list whose middle digest fails hard
yields count 2, error `boom`, and satisfies the one-failure hypothesis. -/
theorem c4_count_plus_errors_is_total_witness :
    ((["x", "bad", "y"] : List String).filter fun d =>
      ((PurgerFmt.deleteManifest delOneBad d).2).isSome).length = 1 ∧
    (PurgerFmt.PurgeManifests delOneBad ["x", "bad", "y"]).1 = 3 - 1 ∧
    (PurgerFmt.PurgeManifests delOneBad ["x", "bad", "y"]).2 ≠ none := by
  have h := (c4_count_plus_errors_is_total delOk delOneBad [] ["x", "bad", "y"]).2.2.2
    (by decide)
  exact ⟨by decide, h.1, h.2⟩

/-- C5: counterexample to the claim as stated.  With three pages of one
manifest each the sweep issues four list calls, not three: the fourth call,
whose cursor is the third page's last digest, returns the empty page that
terminates the loop. -/
theorem c5_three_pages_counterexample :
    (PurgerFmt.PurgeUntaggedManifests 10
      (threePageListing ⟨some "sha1", ""⟩ ⟨some "sha2", ""⟩ ⟨some "sha3", ""⟩ "sha1" "sha2")
      allDeletable delOk []).listCalls = ["", "sha1", "sha2", "sha3"] ∧
    ((PurgerFmt.PurgeUntaggedManifests 10
      (threePageListing ⟨some "sha1", ""⟩ ⟨some "sha2", ""⟩ ⟨some "sha3", ""⟩ "sha1" "sha2")
      allDeletable delOk []).listCalls).length ≠ 3 := by decide

/-- C5 (amended): with three pages of one manifest each the sweep issues
exactly four list calls — one per page plus a final call that returns the
empty page and ends the loop — with monotonically advancing cursors: the
first is empty and each later call's cursor is the previous page's last
digest. -/
theorem c5_amended_four_list_calls (m1 m2 m3 : ManifestAttributesBase)
    (d1 d2 d3 : String) (isDel : ManifestAttributesBase → Bool)
    (delM : String → DeleteReply) (toSkip : List String) (fuel : Nat)
    (h1 : m1.Digest = some d1) (h2 : m2.Digest = some d2) (h3 : m3.Digest = some d3)
    (hd1 : d1 ≠ "") (hd2e : d2 ≠ "") (hd21 : d2 ≠ d1)
    (hd3e : d3 ≠ "") (hd31 : d3 ≠ d1) (hd32 : d3 ≠ d2) :
    (PurgerFmt.PurgeUntaggedManifests (fuel + 4) (threePageListing m1 m2 m3 d1 d2)
      isDel delM toSkip).listCalls = ["", d1, d2, d3] := by
  have l0 : threePageListing m1 m2 m3 d1 d2 "" = (some ⟨true, 200, some [m1]⟩, none) := by
    simp [threePageListing]
  have l1 : threePageListing m1 m2 m3 d1 d2 d1 = (some ⟨true, 200, some [m2]⟩, none) := by
    simp [threePageListing, hd1]
  have l2 : threePageListing m1 m2 m3 d1 d2 d2 = (some ⟨true, 200, some [m3]⟩, none) := by
    simp [threePageListing, hd2e, hd21]
  have l3 : threePageListing m1 m2 m3 d1 d2 d3 = (some ⟨true, 200, some []⟩, none) := by
    simp [threePageListing, hd3e, hd31, hd32]
  have hfuel : fuel + 4 = fuel + 1 + 1 + 1 + 1 := by omega
  rw [sweep_listCalls, hfuel]
  simp [PurgerFmt.purgeUntaggedLoop, l0, l1, l2, l3, h1, h2, h3]

/-- Witness for the amended C5 at three concrete digests and fuel 4. -/
theorem c5_amended_four_list_calls_witness :
    ((⟨some "sha1", ""⟩ : ManifestAttributesBase).Digest = some "sha1" ∧
      ("sha1" : String) ≠ "" ∧ ("sha3" : String) ≠ "sha2") ∧
    (PurgerFmt.PurgeUntaggedManifests 4
      (threePageListing ⟨some "sha1", ""⟩ ⟨some "sha2", ""⟩ ⟨some "sha3", ""⟩ "sha1" "sha2")
      allDeletable delOk []).listCalls = ["", "sha1", "sha2", "sha3"] := by
  refine ⟨⟨rfl, by decide, by decide⟩, ?_⟩
  exact c5_amended_four_list_calls ⟨some "sha1", ""⟩ ⟨some "sha2", ""⟩ ⟨some "sha3", ""⟩
    "sha1" "sha2" "sha3" allDeletable delOk [] 0 rfl rfl rfl (by decide) (by decide)
    (by decide) (by decide) (by decide) (by decide)

/-- C7: a digest submitted for deletion by the untagged sweep's pagination
loop always comes from a listed page record carrying that digest, accepted
by the deletability predicate, and absent from the skip set — so records
lacking a digest, records not independently deletable, and records in the
skip set are never submitted.  On the concrete listing `{sha-a, sha-b,
sha-c}` with skip set `{sha-b}` and everything deletable, exactly `sha-a`
and `sha-c` are submitted and deleted and the count is 2. -/
theorem c7_skip_set_correct :
    (∀ (listM : String → ListReply) (isDel : ManifestAttributesBase → Bool)
        (toSkip : List String) (fuel : Nat) (cursor : String) (d : String),
      d ∈ (PurgerFmt.purgeUntaggedLoop listM isDel toSkip fuel cursor).submitted →
      toSkip.contains d = false ∧
        ∃ c ms, listedPage (listM c) = some ms ∧
          ∃ m ∈ ms, m.Digest = some d ∧ isDel m = true) ∧
    PurgerFmt.PurgeUntaggedManifests 3 listABC allDeletable delOk ["sha-b"] =
      ⟨["", "sha-c"], ["sha-a", "sha-c"], .ret 2 none true⟩ := by
  constructor
  · intro listM isDel toSkip fuel
    induction fuel with
    | zero =>
      intro cursor d hd
      simp [PurgerFmt.purgeUntaggedLoop] at hd
    | succ n ih =>
      intro cursor d hd
      rcases hL : listM cursor with ⟨resOpt, err⟩
      simp only [PurgerFmt.purgeUntaggedLoop] at hd
      rw [hL] at hd
      cases err with
      | some e =>
        by_cases hnf : listNotFound resOpt
        · simp [hnf] at hd
        · simp [hnf] at hd
      | none =>
        cases resOpt with
        | none => simp at hd
        | some res =>
          simp only [] at hd
          cases hattrs : res.ManifestsAttributes with
          | none => rw [hattrs] at hd; simp at hd
          | some ms =>
            rw [hattrs] at hd
            simp only [] at hd
            cases hlast : ms.getLast? with
            | none => rw [hlast] at hd; simp at hd
            | some lastM =>
              rw [hlast] at hd
              simp only [] at hd
              cases hdig : lastM.Digest with
              | none =>
                rw [hdig] at hd
                simp only [] at hd
                obtain ⟨hsk, m, hm, hmd, hdel⟩ := mem_pageSubmissions _ _ _ _ hd
                refine ⟨hsk, cursor, ms, ?_, m, hm, hmd, hdel⟩
                rw [hL]
                simp only [listedPage]
                exact hattrs
              | some nd =>
                rw [hdig] at hd
                simp only [List.mem_append] at hd
                rcases hd with hd | hd
                · obtain ⟨hsk, m, hm, hmd, hdel⟩ := mem_pageSubmissions _ _ _ _ hd
                  refine ⟨hsk, cursor, ms, ?_, m, hm, hmd, hdel⟩
                  rw [hL]
                  simp only [listedPage]
                  exact hattrs
                · exact ih nd d hd
  · decide

/-- Witness for C7: `sha-a` is submitted on the concrete listing, is not in
the skip set, and comes from a listed, deletable record. -/
theorem c7_skip_set_correct_witness :
    "sha-a" ∈ (PurgerFmt.purgeUntaggedLoop listABC allDeletable ["sha-b"] 3 "").submitted ∧
    ((["sha-b"] : List String).contains "sha-a" = false ∧
      ∃ c ms, listedPage (listABC c) = some ms ∧
        ∃ m ∈ ms, m.Digest = some "sha-a" ∧ allDeletable m = true) := by
  refine ⟨by decide, ?_⟩
  exact c7_skip_set_correct.1 listABC allDeletable ["sha-b"] 3 "" "sha-a" (by decide)
